import Mathlib

/-!
Verification development for deptry's dependency-source resolution subsystem:
`deptry/dependency_getter/builder.py` (the detector) and
`deptry/dependency_getter/pep621/uv.py` (the UV workspace-aware parser),
shallowly embedded in Lean 4.

Filesystem paths are lists of components; a filesystem maps pyproject-style
paths to either a parsed TOML document or a parse failure, and additionally
records which plain files exist in the working directory.  Python exceptions
that the source code lets escape are modelled with `Except`; exceptions the
source code catches are modelled by the corresponding fallback value.
-/

namespace Deptry

/-- A filesystem path, as a list of components from the root. -/
abbrev Path := List String

/-- A TOML value, restricted to the shapes the embedded code inspects:
tables, strings, lists of strings, and booleans. -/
inductive Toml where
  | table : List (String × Toml) → Toml
  | str : String → Toml
  | strList : List String → Toml
  | bool : Bool → Toml

/-- Association lookup in a TOML table's key/value list. -/
def tfind : List (String × Toml) → String → Option Toml
  | [], _ => none
  | p :: rest, k => if p.1 = k then some p.2 else tfind rest k

/-- `d[k]` / `d.get(k)` on a TOML value: `none` when the key is absent or the
value is not a table (Python would raise `KeyError` / return the default). -/
def Toml.get? : Toml → String → Option Toml
  | Toml.table kvs, k => tfind kvs k
  | _, _ => none

/-- Python truthiness of a TOML value (empty containers and strings are falsy). -/
def Toml.truthy : Toml → Bool
  | Toml.table kvs => !kvs.isEmpty
  | Toml.str s => !(s = "")
  | Toml.strList l => !l.isEmpty
  | Toml.bool b => b

/-- Generic association-list lookup (used for the filesystem and for
`package_module_name_map`). -/
def assocFind {α : Type} [DecidableEq α] {β : Type} (k : α) : List (α × β) → Option β
  | [] => none
  | p :: rest => if p.1 = k then some p.2 else assocFind k rest

/-- The filesystem state a resolution run reads: `pyproject` maps a path to
`some t` when the file exists and parses to `t`, and to `none` when the file
exists but is malformed (loading raises `TOMLDecodeError`); paths not in the
list do not exist.  `cwdFiles` lists the plain file names that exist relative
to the working directory (used for the requirements-files checks). -/
structure FileSystem where
  pyproject : List (Path × Option Toml)
  cwdFiles : List String

/-- `Path.exists()` for a pyproject-style path (true also for malformed files). -/
def existsPy (fs : FileSystem) (p : Path) : Bool :=
  (assocFind p fs.pyproject).isSome

/-- `load_pyproject_toml`: errors when the file is missing or malformed. -/
def loadPyprojectToml (fs : FileSystem) (p : Path) : Except Unit Toml :=
  match assocFind p fs.pyproject with
  | some (some t) => Except.ok t
  | some none => Except.error ()
  | none => Except.error ()

/-- Map a function over the characters of a string. -/
def mapChars (f : Char → Char) (s : String) : String :=
  String.mk (s.data.map f)

/-- Python `s.replace(a, b)` for single-character `a`, `b`. -/
def replaceChar (s : String) (a b : Char) : String :=
  mapChars (fun c => if c = a then b else c) s

/-- Python `s.lower()` (ASCII model). -/
def lowerStr (s : String) : String :=
  mapChars Char.toLower s

/-- `name.replace("-", "_").lower()`: the normalization applied to both the
declared dependency name and the workspace package name before comparison. -/
def normalizeName (s : String) : String :=
  lowerStr (replaceChar s '-' '_')

/-- Split a list of characters on `/`. -/
def splitSlash : List Char → List Char → List String
  | [], cur => [String.mk cur.reverse]
  | c :: rest, cur =>
      if c = '/' then String.mk cur.reverse :: splitSlash rest []
      else splitSlash rest (c :: cur)

/-- A relative path string (for example `"pkgs/core"`) as path components. -/
def relPath (s : String) : Path :=
  (splitSlash s.data []).filter (fun c => !(c = ""))

/-- `Path(pkg).name`: the final path segment (for example `"src/scan_api"`
yields `"scan_api"`). -/
def pathName (s : String) : String :=
  ((splitSlash s.data []).filter (fun c => !(c = ""))).getLastD ""

/-- `PurePath.parents` of a directory given as components: the immediate
parent first, ending with the root. -/
def parentsOf (p : Path) : List Path :=
  (List.range p.length).map (fun k => p.take (p.length - 1 - k))

/-- Deterministic model of Python's `list(set(xs))` for strings: duplicates
removed, keeping the first occurrence.  (Within one interpreter process the
set iteration order for a fixed construction is fixed; the embedding picks
first-occurrence order as that fixed order.) -/
def pySet (xs : List String) : List String :=
  xs.foldl (fun acc x => if x ∈ acc then acc else acc ++ [x]) []

/-! ## Detector (`DependencyGetterBuilder`, `builder.py`) -/

/-- The fields of the `DependencyGetterBuilder` dataclass.  `config` is the
path of the project's `pyproject.toml`. -/
structure BuilderConfig where
  config : Path
  package_module_name_map : List (String × List String)
  optional_dependencies_dev_groups : List String
  requirements_files : List String
  using_default_requirements_files : Bool
  requirements_files_dev : List String

/-- Which dependency getter `build()` selected.  The constructor arguments
common to all getters (the config path, the module-name map and the dev
groups, which are the builder's own fields) are left implicit; the
requirements getter records the runtime and dev requirements-file lists it
receives. -/
inductive SelectedGetter where
  | poetry
  | uv
  | pdm
  | pep621
  | requirements (files : List String) (devFiles : List String)
deriving DecidableEq

/-- The exceptions `build()` can let escape: the detector's own
`DependencySpecificationNotFoundError(self.requirements_files)` and a TOML
decode error from loading a malformed `pyproject.toml`. -/
inductive BuildError where
  | dependencySpecificationNotFound (requirementsFiles : List String)
  | tomlDecodeError
deriving DecidableEq

/-- `_project_contains_pyproject_toml`: `self.config.exists()`. -/
def projectContainsPyprojectToml (fs : FileSystem) (b : BuilderConfig) : Bool :=
  existsPy fs b.config

/-- `_project_uses_poetry`: presence of `[tool.poetry]` (the `KeyError` on an
absent key is caught and yields `False`). -/
def projectUsesPoetry (t : Toml) : Bool :=
  ((t.get? "tool").bind (fun x => x.get? "poetry")).isSome

/-- `_project_uses_pdm`: presence of `[tool.pdm.dev-dependencies]`. -/
def projectUsesPdm (t : Toml) : Bool :=
  (((t.get? "tool").bind (fun x => x.get? "pdm")).bind
    (fun x => x.get? "dev-dependencies")).isSome

/-- `_project_uses_uv`: `[tool.uv]` present with at least one of the keys
`dev-dependencies`, `sources`, `workspace`. -/
def projectUsesUv (t : Toml) : Bool :=
  match (t.get? "tool").bind (fun x => x.get? "uv") with
  | some uvc =>
      (uvc.get? "dev-dependencies").isSome || (uvc.get? "sources").isSome ||
        (uvc.get? "workspace").isSome
  | none => false

/-- The membership test `"tool" in d and "uv" in d["tool"] and "workspace" in
d["tool"]["uv"]` used on ancestor manifests. -/
def hasUvWorkspaceKey (d : Toml) : Bool :=
  (((d.get? "tool").bind (fun x => x.get? "uv")).bind
    (fun x => x.get? "workspace")).isSome

/-- `_project_is_in_uv_workspace`: walk the strict ancestors of the config's
directory; an ancestor whose `pyproject.toml` exists, loads and has a
`[tool.uv.workspace]` key makes the project a workspace member.  Any exception
while loading an ancestor manifest is caught (`except Exception: continue`),
which the embedding renders as that ancestor contributing `false`. -/
def projectIsInUvWorkspace (fs : FileSystem) (configPath : Path) : Bool :=
  (parentsOf configPath.dropLast).any (fun parent =>
    let pp := parent ++ ["pyproject.toml"]
    existsPy fs pp &&
      (match loadPyprojectToml fs pp with
       | Except.ok d => hasUvWorkspaceKey d
       | Except.error _ => false))

/-- `_project_uses_pep_621`: truthiness of `pyproject_toml.get("project")`,
so an empty `[project]` table does not count. -/
def projectUsesPep621 (t : Toml) : Bool :=
  match t.get? "project" with
  | some v => v.truthy
  | none => false

/-- `_project_uses_requirements_files`: prefer `requirements.in` in the
working directory when no requirements files were explicitly specified,
otherwise use the configured paths if any of them exists. -/
def projectUsesRequirementsFiles (fs : FileSystem) (b : BuilderConfig) :
    Bool × List String :=
  if b.using_default_requirements_files && fs.cwdFiles.contains "requirements.in" then
    (true, ["requirements.in"])
  else if b.requirements_files.any (fun f => fs.cwdFiles.contains f) then
    (true, b.requirements_files)
  else (false, [])

/-- The tail of `build()`: the requirements-files check, succeeding with the
requirements getter or raising `DependencySpecificationNotFoundError` with the
builder's configured `requirements_files`. -/
def requirementsStep (fs : FileSystem) (b : BuilderConfig) :
    Except BuildError SelectedGetter :=
  match projectUsesRequirementsFiles fs b with
  | (true, files) => Except.ok (SelectedGetter.requirements files b.requirements_files_dev)
  | (false, _) => Except.error (BuildError.dependencySpecificationNotFound b.requirements_files)

/-- `DependencyGetterBuilder.build()`. -/
def build (fs : FileSystem) (b : BuilderConfig) : Except BuildError SelectedGetter :=
  if projectContainsPyprojectToml fs b then
    match loadPyprojectToml fs b.config with
    | Except.error _ => Except.error BuildError.tomlDecodeError
    | Except.ok t =>
      if projectUsesPoetry t then Except.ok SelectedGetter.poetry
      else if projectUsesUv t || projectIsInUvWorkspace fs b.config then
        Except.ok SelectedGetter.uv
      else if projectUsesPdm t then Except.ok SelectedGetter.pdm
      else if projectUsesPep621 t then Except.ok SelectedGetter.pep621
      else requirementsStep fs b
  else requirementsStep fs b

/-! ## Workspace-aware parser (`UvDependencyGetter`, `pep621/uv.py`) -/

/-- The constructor arguments shared by the PEP 621 family of getters. -/
structure GetterConfig where
  config : Path
  package_module_name_map : List (String × List String)
  optional_dependencies_dev_groups : List String

/-- A declared dependency: name exactly as declared, the manifest that
declared it, and its candidate import module names. -/
structure Dependency where
  name : String
  definition_file : Path
  module_names : List String
deriving DecidableEq

/-- The canonical result of a parser's `get()`. -/
structure DependenciesExtract where
  dependencies : List Dependency
  dev_dependencies : List Dependency
deriving DecidableEq

/-- `member_data.get("project", {}).get("name")`, filtered through the
`if package_name:` truthiness check. -/
def projectNameOf (d : Toml) : Option String :=
  match (d.get? "project").bind (fun p => p.get? "name") with
  | some (Toml.str s) => if s = "" then none else some s
  | _ => none

/-- The `[tool.hatch.build.targets.wheel].packages` list of a member manifest
(each `.get` with a `{}` default; any shape mismatch yields the empty list,
as the surrounding `except Exception` in the source catches the resulting
`AttributeError`). -/
def hatchPackages (d : Toml) : List String :=
  match (((((d.get? "tool").bind (fun x => x.get? "hatch")).bind
      (fun x => x.get? "build")).bind (fun x => x.get? "targets")).bind
      (fun x => x.get? "wheel")).bind (fun x => x.get? "packages") with
  | some (Toml.strList l) => l
  | _ => []

/-- `_extract_module_names_from_pyproject`: override map first, then the
hatch build-layout packages (final path segment of each), then the package
name with hyphens replaced by underscores.  A failure to load the member
manifest is caught and takes the fallback branch. -/
def extractModuleNames (fs : FileSystem) (pmap : List (String × List String))
    (memberPy : Path) (packageName : String) : List String :=
  match assocFind packageName pmap with
  | some mods => mods
  | none =>
    match loadPyprojectToml fs memberPy with
    | Except.ok d =>
        let pkgs := hatchPackages d
        if pkgs.isEmpty then [replaceChar packageName '-' '_']
        else pkgs.map pathName
    | Except.error _ => [replaceChar packageName '-' '_']

/-- The `workspace_packages` dict: package name to module names, in insertion
order. -/
abbrev WSDict := List (String × List String)

/-- Python dict assignment `d[k] = v`: overwrite in place when the key
exists, append otherwise. -/
def dictInsert (d : WSDict) (k : String) (v : List String) : WSDict :=
  if d.any (fun kv => kv.1 = k) then
    d.map (fun kv => if kv.1 = k then (k, v) else kv)
  else d ++ [(k, v)]

/-- One `[tool.uv.sources]` entry in discovery pass 1: a table with
`workspace = true` and a truthy `path` whose manifest exists records the
entry's key as a member. -/
def pass1Step (fs : FileSystem) (pmap : List (String × List String)) (dir : Path)
    (acc : WSDict) (kv : String × Toml) : WSDict :=
  match kv.2.get? "workspace" with
  | some (Toml.bool true) =>
    match kv.2.get? "path" with
    | some (Toml.str s) =>
      if s = "" then acc
      else
        let memberPy := dir ++ relPath s ++ ["pyproject.toml"]
        if existsPy fs memberPy then
          dictInsert acc kv.1 (extractModuleNames fs pmap memberPy kv.1)
        else acc
    | _ => acc
  | _ => acc

/-- One member path in discovery pass 2 (`[tool.uv.workspace].members` of the
current manifest): an existing member manifest that loads and declares a
project name is recorded; a load failure is caught and the member skipped. -/
def pass2Step (fs : FileSystem) (pmap : List (String × List String)) (dir : Path)
    (acc : WSDict) (m : String) : WSDict :=
  let memberPy := dir ++ relPath m ++ ["pyproject.toml"]
  if existsPy fs memberPy then
    match loadPyprojectToml fs memberPy with
    | Except.ok md =>
      match projectNameOf md with
      | some n => dictInsert acc n (extractModuleNames fs pmap memberPy n)
      | none => acc
    | Except.error _ => acc
  else acc

/-- One member path in discovery pass 3 (members of an ancestor workspace
root): as pass 2, but a package already recorded is not overwritten
(`package_name not in workspace_packages`). -/
def pass3MemberStep (fs : FileSystem) (pmap : List (String × List String))
    (parent : Path) (acc : WSDict) (m : String) : WSDict :=
  let memberPy := parent ++ relPath m ++ ["pyproject.toml"]
  if existsPy fs memberPy then
    match loadPyprojectToml fs memberPy with
    | Except.ok md =>
      match projectNameOf md with
      | some n =>
          if acc.any (fun kv => kv.1 = n) then acc
          else acc ++ [(n, extractModuleNames fs pmap memberPy n)]
      | none => acc
    | Except.error _ => acc
  else acc

/-- `parent_data["tool"]["uv"]["workspace"]["members"]` as an optional list:
`none` when any key of the chain is missing (the `KeyError` path). -/
def uvWorkspaceMembers (d : Toml) : Option (List String) :=
  match (((d.get? "tool").bind (fun x => x.get? "uv")).bind
      (fun x => x.get? "workspace")).bind (fun x => x.get? "members") with
  | some (Toml.strList l) => some l
  | _ => none

/-- Discovery pass 3: walk the ancestor directories; the first ancestor whose
manifest exists and has a members list is processed and the search stops
(`break`).  An ancestor manifest that exists but fails to parse raises: the
surrounding `try` catches only `KeyError`, so the `TOMLDecodeError` escapes
`_get_workspace_packages`. -/
def pass3 (fs : FileSystem) (pmap : List (String × List String)) (acc : WSDict) :
    List Path → Except Unit WSDict
  | [] => Except.ok acc
  | parent :: rest =>
    let pp := parent ++ ["pyproject.toml"]
    if existsPy fs pp then
      match loadPyprojectToml fs pp with
      | Except.error _ => Except.error ()
      | Except.ok d =>
        match uvWorkspaceMembers d with
        | some members => Except.ok (members.foldl (pass3MemberStep fs pmap parent) acc)
        | none => pass3 fs pmap acc rest
    else pass3 fs pmap acc rest

/-- `UvDependencyGetter._get_workspace_packages`: the three discovery passes
in order, threading the accumulated dict. -/
def getWorkspacePackages (fs : FileSystem) (cfg : GetterConfig) : Except Unit WSDict :=
  match loadPyprojectToml fs cfg.config with
  | Except.error _ => Except.error ()
  | Except.ok d =>
    let dir := cfg.config.dropLast
    let acc1 :=
      match ((d.get? "tool").bind (fun x => x.get? "uv")).bind (fun x => x.get? "sources") with
      | some (Toml.table kvs) => kvs.foldl (pass1Step fs cfg.package_module_name_map dir) []
      | _ => []
    let acc2 :=
      match uvWorkspaceMembers d with
      | some members => members.foldl (pass2Step fs cfg.package_module_name_map dir) acc1
      | none => acc1
    pass3 fs cfg.package_module_name_map acc2 (parentsOf dir)

/-- The bare name of a PEP 508 dependency string: the leading run of name
characters, before any version constraint, extras or markers. -/
def pep508Name (s : String) : String :=
  String.mk (s.data.takeWhile (fun c => c.isAlphanum || c = '-' || c = '_' || c = '.'))

/-- A dependency as ordinary extraction produces it: declared name, the
manifest as its definition file, and module names from the override map or
the underscore fallback. -/
def mkDependency (cfg : GetterConfig) (n : String) : Dependency :=
  ⟨n, cfg.config,
    match assocFind n cfg.package_module_name_map with
    | some ms => ms
    | none => [replaceChar n '-' '_']⟩

/-- The string lists of all `[dependency-groups]` entries. -/
def dependencyGroupStrings (d : Toml) : List String :=
  match d.get? "dependency-groups" with
  | some (Toml.table kvs) =>
      kvs.foldl (fun acc kv =>
        match kv.2 with
        | Toml.strList l => acc ++ l
        | _ => acc) []
  | _ => []

/-- The strings of the `[project.optional-dependencies]` groups the caller
designated as dev groups. -/
def optionalDevStrings (cfg : GetterConfig) (d : Toml) : List String :=
  match (d.get? "project").bind (fun p => p.get? "optional-dependencies") with
  | some opt =>
      cfg.optional_dependencies_dev_groups.foldl (fun acc g =>
        match opt.get? g with
        | some (Toml.strList l) => acc ++ l
        | _ => acc) []
  | none => []

/-- Modelled from the spec: `PEP621DependencyGetter.get` (the file
`deptry/dependency_getter/pep621/base.py` is not under `src/`).  Per the
spec, the parser loads the manifest, extracts the declared runtime
dependencies from the standardized project-metadata section using
version-specifier-grammar name extraction, always injects the project's own
package as an implicit dependency, and collects dev dependencies from the
dialect's dev sections plus the optional-dependency groups the caller
designated as dev. -/
def pep621Get (fs : FileSystem) (cfg : GetterConfig) : Except Unit DependenciesExtract :=
  match loadPyprojectToml fs cfg.config with
  | Except.error _ => Except.error ()
  | Except.ok d =>
    let runtimeStrings :=
      match (d.get? "project").bind (fun p => p.get? "dependencies") with
      | some (Toml.strList l) => l
      | _ => []
    let selfDeps :=
      match projectNameOf d with
      | some n => [mkDependency cfg n]
      | none => []
    let deps := runtimeStrings.map (fun s => mkDependency cfg (pep508Name s))
    let devStrings := dependencyGroupStrings d ++ optionalDevStrings cfg d
    Except.ok ⟨selfDeps ++ deps, devStrings.map (fun s => mkDependency cfg (pep508Name s))⟩

/-- The `[tool.uv.dev-dependencies]` string list (empty on the `KeyError`
path). -/
def uvDevDependencies (d : Toml) : List String :=
  match (((d.get? "tool").bind (fun x => x.get? "uv")).bind
      (fun x => x.get? "dev-dependencies")) with
  | some (Toml.strList l) => l
  | _ => []

/-- `super().get()` as seen from `UvDependencyGetter`: the spec-modelled base
extraction, whose dev-dependency hook is overridden by
`UvDependencyGetter._get_dev_dependencies` to append the parsed
`[tool.uv.dev-dependencies]` strings. -/
def uvBaseGet (fs : FileSystem) (cfg : GetterConfig) : Except Unit DependenciesExtract :=
  match pep621Get fs cfg with
  | Except.error e => Except.error e
  | Except.ok ext =>
    match loadPyprojectToml fs cfg.config with
    | Except.error _ => Except.error ()
    | Except.ok d =>
      Except.ok ⟨ext.dependencies,
        ext.dev_dependencies ++
          (uvDevDependencies d).map (fun s => mkDependency cfg (pep508Name s))⟩

/-- The enhancement of one extracted dependency in `UvDependencyGetter.get`:
the first workspace package whose normalized name matches replaces the
dependency's module names with the deduplicated union of the member's module
names, the member name with its underscored and hyphenated variants, and the
declared name with its underscored variant; with no match the dependency is
kept as is. -/
def enhanceOne (cfg : GetterConfig) (ws : WSDict) (dep : Dependency) : Dependency :=
  match ws.find? (fun p => normalizeName p.1 == normalizeName dep.name) with
  | some p =>
      ⟨dep.name, cfg.config,
        pySet (p.2 ++ [p.1, replaceChar p.1 '-' '_', replaceChar p.1 '_' '-',
          dep.name, replaceChar dep.name '-' '_'])⟩
  | none => dep

/-- The enhancement step of `UvDependencyGetter.get` over a whole extract:
each runtime dependency is enhanced or passed through, and the dev
dependencies are returned as produced by ordinary extraction. -/
def uvEnhance (cfg : GetterConfig) (ws : WSDict) (base : DependenciesExtract) :
    DependenciesExtract :=
  ⟨base.dependencies.map (enhanceOne cfg ws), base.dev_dependencies⟩

/-- `UvDependencyGetter.get()`: discover workspace packages, run ordinary
extraction, then enhance. -/
def uvGet (fs : FileSystem) (cfg : GetterConfig) : Except Unit DependenciesExtract :=
  match getWorkspacePackages fs cfg with
  | Except.error e => Except.error e
  | Except.ok ws =>
    match uvBaseGet fs cfg with
    | Except.error e => Except.error e
    | Except.ok base => Except.ok (uvEnhance cfg ws base)

/-! ## Helper lemmas -/

theorem loadOk_existsPy {fs : FileSystem} {p : Path} {t : Toml}
    (h : loadPyprojectToml fs p = Except.ok t) : existsPy fs p = true := by
  unfold loadPyprojectToml at h
  unfold existsPy
  cases ha : assocFind p fs.pyproject with
  | none => rw [ha] at h; simp at h
  | some o =>
    cases o with
    | none => rw [ha] at h; simp at h
    | some u => simp [ha]

theorem requirementsStep_error_iff (fs : FileSystem) (b : BuilderConfig) :
    requirementsStep fs b =
        Except.error (BuildError.dependencySpecificationNotFound b.requirements_files) ↔
      (projectUsesRequirementsFiles fs b).1 = false := by
  unfold requirementsStep
  cases h : projectUsesRequirementsFiles fs b with
  | mk check files => cases check <;> simp

theorem mem_pySet_aux (xs : List String) (acc : List String) (a : String)
    (h : a ∈ acc ∨ a ∈ xs) :
    a ∈ xs.foldl (fun acc x => if x ∈ acc then acc else acc ++ [x]) acc := by
  induction xs generalizing acc with
  | nil => simpa using h
  | cons x rest ih =>
    simp only [List.foldl_cons]
    apply ih
    by_cases hx : x ∈ acc
    · rw [if_pos hx]
      rcases h with h | h
      · exact Or.inl h
      · rcases List.mem_cons.mp h with rfl | h
        · exact Or.inl hx
        · exact Or.inr h
    · rw [if_neg hx]
      rcases h with h | h
      · exact Or.inl (List.mem_append_left _ h)
      · rcases List.mem_cons.mp h with rfl | h
        · exact Or.inl (List.mem_append_right _ (by simp))
        · exact Or.inr h

theorem mem_pySet {a : String} {xs : List String} (h : a ∈ xs) : a ∈ pySet xs := by
  unfold pySet
  exact mem_pySet_aux xs [] a (Or.inr h)

theorem ancestorHit_iff (fs : FileSystem) (pp : Path) :
    (existsPy fs pp &&
      (match loadPyprojectToml fs pp with
       | Except.ok d => hasUvWorkspaceKey d
       | Except.error _ => false)) = true ↔
      ∃ d, loadPyprojectToml fs pp = Except.ok d ∧ hasUvWorkspaceKey d = true := by
  unfold existsPy loadPyprojectToml
  cases h : assocFind pp fs.pyproject with
  | none => simp [h]
  | some o =>
    cases o with
    | none => simp [h]
    | some t => simp [h]

/-! ## Claim theorems -/

/-- C1: whenever the project's `pyproject.toml` loads and contains a
`[tool.poetry]` table, `build()` selects the Poetry getter — irrespective of
any UV sections, `[tool.pdm.dev-dependencies]`, `[project]` section or UV
workspace ancestry, since the theorem quantifies over every filesystem and
builder configuration. -/
theorem poetry_always_selected (fs : FileSystem) (b : BuilderConfig) (t : Toml)
    (hload : loadPyprojectToml fs b.config = Except.ok t)
    (hpoetry : projectUsesPoetry t = true) :
    build fs b = Except.ok SelectedGetter.poetry := by
  have hex : projectContainsPyprojectToml fs b = true := loadOk_existsPy hload
  simp [build, hex, hload, hpoetry]

def tW1 : Toml := Toml.table [
  ("tool", Toml.table [
    ("poetry", Toml.table [("dependencies", Toml.table [])]),
    ("uv", Toml.table [
      ("dev-dependencies", Toml.strList ["pytest"]),
      ("sources", Toml.table []),
      ("workspace", Toml.table [("members", Toml.strList [])])]),
    ("pdm", Toml.table [("dev-dependencies", Toml.strList [])])]),
  ("project", Toml.table [("name", Toml.str "app")])]

def tW1root : Toml := Toml.table [
  ("tool", Toml.table [("uv", Toml.table [("workspace",
    Toml.table [("members", Toml.strList ["app"])])])])]

def fsW1 : FileSystem :=
  ⟨[(["ws", "app", "pyproject.toml"], some tW1),
    (["ws", "pyproject.toml"], some tW1root)], []⟩

def bW1 : BuilderConfig := ⟨["ws", "app", "pyproject.toml"], [], [], [], true, []⟩

theorem poetry_always_selected_witness :
    build fsW1 bW1 = Except.ok SelectedGetter.poetry :=
  poetry_always_selected fsW1 bW1 tW1 rfl rfl

/-- C2: `build()` raises `DependencySpecificationNotFoundError`, carrying the
builder's configured requirements-file list, exactly when the manifest is
absent — or loads while matching none of the Poetry, UV (including the
UV-workspace-ancestor check), PDM or PEP 621 dialects — and the
requirements-files check fails.  (A manifest that exists but does not parse
raises a TOML decode error instead and declares no dialect.) -/
theorem depspec_error_iff (fs : FileSystem) (b : BuilderConfig) :
    build fs b =
        Except.error (BuildError.dependencySpecificationNotFound b.requirements_files) ↔
      ((projectContainsPyprojectToml fs b = false ∨
        ∃ t, loadPyprojectToml fs b.config = Except.ok t ∧
          projectUsesPoetry t = false ∧ projectUsesUv t = false ∧
          projectIsInUvWorkspace fs b.config = false ∧ projectUsesPdm t = false ∧
          projectUsesPep621 t = false) ∧
        (projectUsesRequirementsFiles fs b).1 = false) := by
  by_cases hc : projectContainsPyprojectToml fs b = true
  · cases hl : loadPyprojectToml fs b.config with
    | error e => simp [build, hc, hl]
    | ok t =>
      by_cases hp : projectUsesPoetry t = true
      · simp [build, hc, hl, hp]
      · rw [Bool.not_eq_true] at hp
        by_cases hu : projectUsesUv t = true
        · simp [build, hc, hl, hp, hu]
        · rw [Bool.not_eq_true] at hu
          by_cases hw : projectIsInUvWorkspace fs b.config = true
          · simp [build, hc, hl, hp, hu, hw]
          · rw [Bool.not_eq_true] at hw
            by_cases hd : projectUsesPdm t = true
            · simp [build, hc, hl, hp, hu, hw, hd]
            · rw [Bool.not_eq_true] at hd
              by_cases he : projectUsesPep621 t = true
              · simp [build, hc, hl, hp, hu, hw, hd, he]
              · rw [Bool.not_eq_true] at he
                rw [show build fs b = requirementsStep fs b by
                  simp [build, hc, hl, hp, hu, hw, hd, he]]
                rw [requirementsStep_error_iff]
                simp [hc, hl, hp, hu, hw, hd, he]
  · rw [Bool.not_eq_true] at hc
    rw [show build fs b = requirementsStep fs b by simp [build, hc]]
    rw [requirementsStep_error_iff]
    simp [hc]

def fsE2 : FileSystem := ⟨[], []⟩

def bE2 : BuilderConfig :=
  ⟨["proj", "pyproject.toml"], [], [], ["requirements.txt"], true, []⟩

theorem depspec_error_iff_witness :
    build fsE2 bE2 =
      Except.error (BuildError.dependencySpecificationNotFound ["requirements.txt"]) :=
  (depspec_error_iff fsE2 bE2).mpr ⟨Or.inl rfl, rfl⟩

/-- C3: the resolution pipeline is a pure function of the filesystem state
and the configuration, so two runs of the workspace-aware parser's `get()` on
the same unchanged project tree produce identical `DependenciesExtract`
values (the embedding fixes the per-process `list(set(...))` iteration order
as first-occurrence order). -/
theorem resolution_idempotent (fs : FileSystem) (cfg : GetterConfig)
    (r₁ r₂ : Except Unit DependenciesExtract)
    (h₁ : uvGet fs cfg = r₁) (h₂ : uvGet fs cfg = r₂) : r₁ = r₂ :=
  h₁.symm.trans h₂

def tWS3 : Toml := Toml.table [
  ("project", Toml.table [
    ("name", Toml.str "app"),
    ("dependencies", Toml.strList ["my_core>=1.0", "requests>=2.0"])]),
  ("tool", Toml.table [("uv", Toml.table [
    ("dev-dependencies", Toml.strList ["pytest==8.3.2"]),
    ("workspace", Toml.table [("members", Toml.strList ["pkgs/core"])])])])]

def tCore3 : Toml := Toml.table [
  ("project", Toml.table [("name", Toml.str "my-core")])]

def fsWS3 : FileSystem :=
  ⟨[(["ws", "pyproject.toml"], some tWS3),
    (["ws", "pkgs", "core", "pyproject.toml"], some tCore3)], []⟩

def gcfgWS3 : GetterConfig := ⟨["ws", "pyproject.toml"], [], []⟩

theorem resolution_idempotent_witness :
    uvGet fsWS3 gcfgWS3 = uvGet fsWS3 gcfgWS3 :=
  resolution_idempotent fsWS3 gcfgWS3 _ _ rfl rfl

/-- C4 (amended): a declared runtime dependency matched (by case-folded,
hyphen/underscore-insensitive name comparison) with the first discovered
workspace member gets module names containing the member's derived module
names, the member name with both its hyphenated and underscored variants, and
the declared name with its underscored variant.  (The declared name's own
hyphenated variant is not added.) -/
theorem workspace_match_module_names (cfg : GetterConfig) (ws : WSDict)
    (dep : Dependency) (wsPkg : String) (wsMods : List String)
    (hfind : ws.find? (fun p => normalizeName p.1 == normalizeName dep.name) =
      some (wsPkg, wsMods)) :
    (∀ m ∈ wsMods, m ∈ (enhanceOne cfg ws dep).module_names) ∧
      wsPkg ∈ (enhanceOne cfg ws dep).module_names ∧
      replaceChar wsPkg '-' '_' ∈ (enhanceOne cfg ws dep).module_names ∧
      replaceChar wsPkg '_' '-' ∈ (enhanceOne cfg ws dep).module_names ∧
      dep.name ∈ (enhanceOne cfg ws dep).module_names ∧
      replaceChar dep.name '-' '_' ∈ (enhanceOne cfg ws dep).module_names := by
  unfold enhanceOne
  rw [hfind]
  refine ⟨fun m hm => mem_pySet (by simp [hm]), mem_pySet (by simp),
    mem_pySet (by simp), mem_pySet (by simp), mem_pySet (by simp),
    mem_pySet (by simp)⟩

def gcfg4 : GetterConfig := ⟨["ws", "pyproject.toml"], [], []⟩

def dep4 : Dependency := ⟨"my_core", ["ws", "pyproject.toml"], ["my_core"]⟩

theorem workspace_match_module_names_witness :
    "my-core" ∈ (enhanceOne gcfg4 [("my-core", ["my_core"])] dep4).module_names ∧
      "my_core" ∈ (enhanceOne gcfg4 [("my-core", ["my_core"])] dep4).module_names :=
  ⟨(workspace_match_module_names gcfg4 [("my-core", ["my_core"])] dep4
      "my-core" ["my_core"] rfl).2.1,
    (workspace_match_module_names gcfg4 [("my-core", ["my_core"])] dep4
      "my-core" ["my_core"] rfl).2.2.1⟩

def dep4c : Dependency := ⟨"My_Core", ["ws", "pyproject.toml"], ["My_Core"]⟩

/-- C4 counterexample: the declared dependency `"My_Core"` matches the
workspace member `"my-core"` after normalization, yet its own hyphenated
variant `"My-Core"` is absent from the enhanced module names, refuting the
claim that the declared name's hyphenated variant is always included. -/
theorem workspace_match_counterexample :
    normalizeName "My_Core" = normalizeName "my-core" ∧
      replaceChar "My_Core" '_' '-' ∉
        (enhanceOne gcfg4 [("my-core", ["my_core"])] dep4c).module_names := by
  exact ⟨rfl, by decide⟩

/-- C5 (amended): errors reading optional files stay contained except in one
place.  (1) The Detector's ancestor check returns true exactly when some
ancestor manifest loads successfully and has a `[tool.uv.workspace]` key, so
a missing or malformed ancestor manifest is treated as not-found and the walk
continues.  (2) In the workspace-members pass a malformed member manifest is
caught and the member skipped.  (3) Likewise in the ancestor pass's member
loop.  (4) In the sources pass a malformed member manifest is caught and the
member is still recorded, with the fallback module name.  The one exception —
a malformed ancestor manifest in the workspace parser's ancestor pass
propagates a parse error out of `get()` — is the counterexample. -/
theorem workspace_discovery_error_handling :
    (∀ (fs : FileSystem) (configPath : Path),
      projectIsInUvWorkspace fs configPath = true ↔
        ∃ parent ∈ parentsOf configPath.dropLast, ∃ d,
          loadPyprojectToml fs (parent ++ ["pyproject.toml"]) = Except.ok d ∧
            hasUvWorkspaceKey d = true) ∧
    (∀ (fs : FileSystem) (pmap : List (String × List String)) (dir : Path)
        (acc : WSDict) (m : String),
      assocFind (dir ++ relPath m ++ ["pyproject.toml"]) fs.pyproject = some none →
        pass2Step fs pmap dir acc m = acc) ∧
    (∀ (fs : FileSystem) (pmap : List (String × List String)) (parent : Path)
        (acc : WSDict) (m : String),
      assocFind (parent ++ relPath m ++ ["pyproject.toml"]) fs.pyproject = some none →
        pass3MemberStep fs pmap parent acc m = acc) ∧
    (∀ (fs : FileSystem) (pmap : List (String × List String)) (dir : Path)
        (acc : WSDict) (nm : String) (src : Toml) (s : String),
      Toml.get? src "workspace" = some (Toml.bool true) →
      Toml.get? src "path" = some (Toml.str s) → (s = "") = False →
      assocFind nm pmap = none →
      assocFind (dir ++ relPath s ++ ["pyproject.toml"]) fs.pyproject = some none →
        pass1Step fs pmap dir acc (nm, src) =
          dictInsert acc nm [replaceChar nm '-' '_']) := by
  refine ⟨?_, ?_, ?_, ?_⟩
  · intro fs configPath
    unfold projectIsInUvWorkspace
    rw [List.any_eq_true]
    exact exists_congr fun parent => and_congr_right fun _ =>
      ancestorHit_iff fs (parent ++ ["pyproject.toml"])
  · intro fs pmap dir acc m h
    rw [List.append_assoc] at h
    simp [pass2Step, existsPy, loadPyprojectToml, h]
  · intro fs pmap parent acc m h
    rw [List.append_assoc] at h
    simp [pass3MemberStep, existsPy, loadPyprojectToml, h]
  · intro fs pmap dir acc nm src s hwsk hpath hs hmap hfile
    rw [List.append_assoc] at hfile
    simp [pass1Step, hwsk, hpath, hs, existsPy, loadPyprojectToml,
      extractModuleNames, hmap, hfile]

def fsW5 : FileSystem :=
  ⟨[(["r", "pkgs", "core", "pyproject.toml"], none)], []⟩

def srcW5 : Toml := Toml.table [("workspace", Toml.bool true), ("path", Toml.str "pkgs/core")]

theorem workspace_discovery_error_handling_witness :
    pass2Step fsW5 [] ["r"] [] "pkgs/core" = [] ∧
      pass1Step fsW5 [] ["r"] [] ("core-pkg", srcW5) =
        dictInsert [] "core-pkg" [replaceChar "core-pkg" '-' '_'] :=
  ⟨workspace_discovery_error_handling.2.1 fsW5 [] ["r"] [] "pkgs/core" rfl,
    workspace_discovery_error_handling.2.2.2 fsW5 [] ["r"] [] "core-pkg" srcW5
      "pkgs/core" rfl rfl (by simp) rfl rfl⟩

def tEmpty5 : Toml := Toml.table []

def fsC5 : FileSystem :=
  ⟨[(["a", "b", "pyproject.toml"], some tEmpty5),
    (["a", "pyproject.toml"], none)], []⟩

def gcfgC5 : GetterConfig := ⟨["a", "b", "pyproject.toml"], [], []⟩

/-- C5 counterexample: the project's own manifest is fine, but the ancestor
manifest at `a/pyproject.toml` is malformed; the workspace parser's ancestor
pass catches only the missing-section condition, so `get()` propagates the
parse error to its caller — while the Detector's ancestor check on the same
tree swallows it. -/
theorem workspace_discovery_counterexample :
    uvGet fsC5 gcfgC5 = Except.error () ∧
      projectIsInUvWorkspace fsC5 ["a", "b", "pyproject.toml"] = false := by
  exact ⟨rfl, rfl⟩

/-- C6: with no pyproject dialect selected, the default-requirements flag set
and `requirements.in` present in the working directory, `build()` selects the
requirements getter with exactly `("requirements.in",)` as its file list —
whatever the configured requirements-file paths contain. -/
theorem requirements_in_default (fs : FileSystem) (b : BuilderConfig)
    (hdefault : b.using_default_requirements_files = true)
    (hin : fs.cwdFiles.contains "requirements.in" = true)
    (hnodialect : projectContainsPyprojectToml fs b = false ∨
      ∃ t, loadPyprojectToml fs b.config = Except.ok t ∧
        projectUsesPoetry t = false ∧ projectUsesUv t = false ∧
        projectIsInUvWorkspace fs b.config = false ∧ projectUsesPdm t = false ∧
        projectUsesPep621 t = false) :
    build fs b =
      Except.ok (SelectedGetter.requirements ["requirements.in"] b.requirements_files_dev) := by
  have hstep : requirementsStep fs b =
      Except.ok (SelectedGetter.requirements ["requirements.in"] b.requirements_files_dev) := by
    unfold requirementsStep projectUsesRequirementsFiles
    rw [hdefault, hin]
    rfl
  rcases hnodialect with hc | ⟨t, hl, hp, hu, hw, hd, he⟩
  · simp [build, hc, hstep]
  · have hc : projectContainsPyprojectToml fs b = true := loadOk_existsPy hl
    simp [build, hc, hl, hp, hu, hw, hd, he, hstep]

def fsR6 : FileSystem := ⟨[], ["requirements.in", "requirements.txt"]⟩

def bR6 : BuilderConfig :=
  ⟨["proj", "pyproject.toml"], [], [], ["requirements.txt", "more.txt"], true, ["dev.txt"]⟩

theorem requirements_in_default_witness :
    build fsR6 bR6 =
      Except.ok (SelectedGetter.requirements ["requirements.in"] ["dev.txt"]) :=
  requirements_in_default fsR6 bR6 rfl rfl (Or.inl rfl)

/-- C7 (amended): module-name derivation follows the chain — override map
verbatim, else the final path segments of a non-empty hatch build-layout
packages list, else the package name with hyphens replaced by underscores —
and the result is non-empty provided every override entry supplied for the
package is non-empty. -/
theorem module_name_chain (fs : FileSystem) (pmap : List (String × List String))
    (memberPy : Path) (packageName : String)
    (hover : ∀ mods, assocFind packageName pmap = some mods → mods ≠ []) :
    (∀ mods, assocFind packageName pmap = some mods →
      extractModuleNames fs pmap memberPy packageName = mods) ∧
    (∀ d, assocFind packageName pmap = none →
      loadPyprojectToml fs memberPy = Except.ok d → hatchPackages d ≠ [] →
      extractModuleNames fs pmap memberPy packageName = (hatchPackages d).map pathName) ∧
    (assocFind packageName pmap = none →
      (∀ d, loadPyprojectToml fs memberPy = Except.ok d → hatchPackages d = []) →
      extractModuleNames fs pmap memberPy packageName = [replaceChar packageName '-' '_']) ∧
    extractModuleNames fs pmap memberPy packageName ≠ [] := by
  refine ⟨?_, ?_, ?_, ?_⟩
  · intro mods h
    simp [extractModuleNames, h]
  · intro d hmap hload hne
    simp [extractModuleNames, hmap, hload, List.isEmpty_iff, hne]
  · intro hmap hempty
    cases hl : loadPyprojectToml fs memberPy with
    | ok d => simp [extractModuleNames, hmap, hl, List.isEmpty_iff, hempty d hl]
    | error e => simp [extractModuleNames, hmap, hl]
  · cases hm : assocFind packageName pmap with
    | some mods => simpa [extractModuleNames, hm] using hover mods hm
    | none =>
      cases hl : loadPyprojectToml fs memberPy with
      | ok d =>
        by_cases hp : hatchPackages d = []
        · simp [extractModuleNames, hm, hl, List.isEmpty_iff, hp]
        · simp [extractModuleNames, hm, hl, List.isEmpty_iff, hp]
      | error e => simp [extractModuleNames, hm, hl]

def pmap7 : List (String × List String) := [("pkg", ["scan_api", "scan_core"])]

theorem module_name_chain_witness :
    extractModuleNames ⟨[], []⟩ pmap7 [] "pkg" = ["scan_api", "scan_core"] ∧
      extractModuleNames ⟨[], []⟩ pmap7 [] "pkg" ≠ [] :=
  ⟨(module_name_chain ⟨[], []⟩ pmap7 [] "pkg"
      (by intro mods h; have h2 : some (["scan_api", "scan_core"] : List String) = some mods := h;
          cases h2; simp)).1 ["scan_api", "scan_core"] rfl,
    (module_name_chain ⟨[], []⟩ pmap7 [] "pkg"
      (by intro mods h; have h2 : some (["scan_api", "scan_core"] : List String) = some mods := h;
          cases h2; simp)).2.2.2⟩

/-- C7 counterexample: an override map entry with an empty module list is
returned verbatim by rule 1, so the derivation yields the empty list,
refuting the unconditional non-emptiness claim. -/
theorem module_name_chain_counterexample :
    extractModuleNames ⟨[], []⟩ [("pkg", [])] [] "pkg" = [] := rfl

/-- C8: the ancestor discovery pass, run on any ancestor list in which every
ancestor before `a` either has no manifest or has one that loads without a
workspace members list, and `a`'s manifest loads with members `ms`, returns
exactly the members recorded from `a` — the ancestors after `a` are never
examined, so members of distinct ancestor roots are never merged, and the
walk is a structurally terminating traversal of the given ancestor list. -/
theorem ancestor_search_first_hit (fs : FileSystem)
    (pmap : List (String × List String)) (acc : WSDict)
    (pre : List Path) (a : Path) (post : List Path) (d : Toml) (ms : List String)
    (hpre : ∀ p ∈ pre, assocFind (p ++ ["pyproject.toml"]) fs.pyproject = none ∨
      ∃ e, loadPyprojectToml fs (p ++ ["pyproject.toml"]) = Except.ok e ∧
        uvWorkspaceMembers e = none)
    (hload : loadPyprojectToml fs (a ++ ["pyproject.toml"]) = Except.ok d)
    (hms : uvWorkspaceMembers d = some ms) :
    pass3 fs pmap acc (pre ++ a :: post) =
      Except.ok (ms.foldl (pass3MemberStep fs pmap a) acc) := by
  induction pre with
  | nil =>
    have hex : existsPy fs (a ++ ["pyproject.toml"]) = true := loadOk_existsPy hload
    simp [pass3, hex, hload, hms]
  | cons p pre' ih =>
    rcases hpre p (by simp) with hnone | ⟨e, he, hme⟩
    · have hex : existsPy fs (p ++ ["pyproject.toml"]) = false := by
        unfold existsPy
        rw [hnone]
        rfl
      simpa [pass3, hex] using ih fun q hq => hpre q (by simp [hq])
    · have hex : existsPy fs (p ++ ["pyproject.toml"]) = true := loadOk_existsPy he
      simpa [pass3, hex, he, hme] using ih fun q hq => hpre q (by simp [hq])

def tRoot8 : Toml := Toml.table [
  ("tool", Toml.table [("uv", Toml.table [("workspace",
    Toml.table [("members", Toml.strList ["pkgs/core"])])])])]

def tCore8 : Toml := Toml.table [
  ("project", Toml.table [("name", Toml.str "my-core")])]

def fs8 : FileSystem :=
  ⟨[(["r", "x", "pyproject.toml"], some (Toml.table [])),
    (["r", "pyproject.toml"], some tRoot8),
    (["r", "pkgs", "core", "pyproject.toml"], some tCore8)], []⟩

theorem ancestor_search_first_hit_witness :
    pass3 fs8 [] [] ([["r", "x"]] ++ ["r"] :: [["zzz"]]) =
      Except.ok ((["pkgs/core"] : List String).foldl (pass3MemberStep fs8 [] ["r"]) []) :=
  ancestor_search_first_hit fs8 [] [] [["r", "x"]] ["r"] [["zzz"]] tRoot8 ["pkgs/core"]
    (by
      intro p hp
      simp only [List.mem_singleton] at hp
      subst hp
      exact Or.inr ⟨Toml.table [], rfl, rfl⟩)
    rfl rfl

/-- C9: a declared runtime dependency whose normalized name matches no
discovered workspace member is passed through the enhancement step of the
workspace-aware parser's `get()` unchanged — same name, definition file and
module names — and the dev-dependency sequence is returned exactly as
ordinary extraction produced it. -/
theorem unmatched_dependency_passthrough (cfg : GetterConfig) (ws : WSDict)
    (base : DependenciesExtract) (dep : Dependency)
    (h : ∀ p ∈ ws, normalizeName p.1 ≠ normalizeName dep.name) :
    enhanceOne cfg ws dep = dep ∧
      (uvEnhance cfg ws base).dev_dependencies = base.dev_dependencies := by
  refine ⟨?_, rfl⟩
  unfold enhanceOne
  have hf : ws.find? (fun p => normalizeName p.1 == normalizeName dep.name) = none := by
    rw [List.find?_eq_none]
    intro p hp
    simpa using h p hp
  rw [hf]

def dep9 : Dependency := ⟨"requests", ["ws", "pyproject.toml"], ["requests"]⟩

def base9 : DependenciesExtract :=
  ⟨[dep9], [⟨"pytest", ["ws", "pyproject.toml"], ["pytest"]⟩]⟩

theorem unmatched_dependency_passthrough_witness :
    enhanceOne gcfg4 [("my-core", ["my_core"])] dep9 = dep9 ∧
      (uvEnhance gcfg4 [("my-core", ["my_core"])] base9).dev_dependencies =
        base9.dev_dependencies :=
  unmatched_dependency_passthrough gcfg4 [("my-core", ["my_core"])] base9 dep9
    (by decide)

/-- C10: a `pyproject.toml` whose `[project]` table is empty fails the
truthiness test in `_project_uses_pep_621`, so with no other dialect matching
`build()` behaves exactly as the requirements-files step — which can never
select the PEP 621 getter — and hence falls through to the requirements
getter or to `DependencySpecificationNotFoundError`. -/
theorem empty_project_table_ignored (fs : FileSystem) (b : BuilderConfig) (t : Toml)
    (hload : loadPyprojectToml fs b.config = Except.ok t)
    (hproj : Toml.get? t "project" = some (Toml.table []))
    (hpoetry : projectUsesPoetry t = false) (huv : projectUsesUv t = false)
    (hws : projectIsInUvWorkspace fs b.config = false)
    (hpdm : projectUsesPdm t = false) :
    projectUsesPep621 t = false ∧ build fs b = requirementsStep fs b ∧
      build fs b ≠ Except.ok SelectedGetter.pep621 := by
  have hpe : projectUsesPep621 t = false := by
    unfold projectUsesPep621
    rw [hproj]
    rfl
  have hc : projectContainsPyprojectToml fs b = true := loadOk_existsPy hload
  have hb : build fs b = requirementsStep fs b := by
    simp [build, hc, hload, hpoetry, huv, hws, hpdm, hpe]
  refine ⟨hpe, hb, ?_⟩
  rw [hb]
  unfold requirementsStep
  cases h : projectUsesRequirementsFiles fs b with
  | mk check files => cases check <;> simp

def t10 : Toml := Toml.table [("project", Toml.table [])]

def fs10 : FileSystem := ⟨[(["proj", "pyproject.toml"], some t10)], []⟩

def b10 : BuilderConfig := ⟨["proj", "pyproject.toml"], [], [], [], true, []⟩

theorem empty_project_table_ignored_witness :
    projectUsesPep621 t10 = false ∧ build fs10 b10 = requirementsStep fs10 b10 ∧
      build fs10 b10 ≠ Except.ok SelectedGetter.pep621 :=
  empty_project_table_ignored fs10 b10 t10 rfl rfl rfl rfl rfl rfl

end Deptry
